import Mathlib

/-!
Shallow embedding of the `bott` sniper-bot pipeline (Rust) in Lean 4, used to
settle the frozen claims about the specification against the source.

Conventions of the embedding:
* Machine integers (`u64`, `u128`, `i64`, `u32`) are modelled as `Nat`/`Int`
  with explicit wrap/cast operations where the source performs an `as` cast or
  a checked/saturating operation.
* `f64` quantities (SOL amounts, ratios, thresholds) are modelled as `ℚ`; the
  claims settled over them depend only on comparisons and exact arithmetic at
  dyadic/decimal values, not on rounding of the binary format.
* Solana `Pubkey` values are opaque and modelled as `ℕ`; PDA derivation and
  chain reads (RPC) are environment inputs to the modelled functions.
* Fallible chain interactions (`Result`) are modelled as `Option` inputs
  (`none` = the error branch), so each code path is explicit.
-/

namespace Bott

/-! ### Machine-integer casts (src: Rust integer semantics used in the sources) -/

/-- Largest value of a `u64`. -/
def U64MAX : ℕ := 2 ^ 64 - 1

/-- Largest value of a `u128`. -/
def U128MAX : ℕ := 2 ^ 128 - 1

/-- Rust `u128::checked_mul` followed by `.unwrap_or(0)`. -/
def checkedMul128 (a b : ℕ) : ℕ := if a * b ≤ U128MAX then a * b else 0

/-- Rust `u128::checked_div` followed by `.unwrap_or(d)` (division by zero gives the default). -/
def checkedDivD (a b d : ℕ) : ℕ := if b = 0 then d else a / b

/-- Rust `u128::saturating_mul`. -/
def saturatingMul128 (a b : ℕ) : ℕ := min (a * b) U128MAX

/-- Rust `as u64` narrowing cast from `u128`. -/
def u64Cast (n : ℕ) : ℕ := n % 2 ^ 64

/-- Rust `as u64` cast from `i64` (two's-complement reinterpretation). -/
def i64ToU64 (i : ℤ) : ℕ := (i % 2 ^ 64).toNat

/-- Rust `as i64` cast from `u64` (two's-complement reinterpretation). -/
def u64ToI64 (n : ℕ) : ℤ := ((n : ℤ) + 2 ^ 63) % 2 ^ 64 - 2 ^ 63

/-- Rust `as u64` cast from `f64` (saturating, truncating toward zero; the
source applies it to non-negative values, where truncation is the floor). -/
def ratToU64 (q : ℚ) : ℕ := if q ≤ 0 then 0 else min (⌊q⌋).toNat U64MAX

/-! ### Executor arithmetic
(src: `src/executor/lightspeed_buy.rs`, `LightSpeedBuyExecutor::calculate_buy_token_amount`
and `calculate_max_sol_cost_with_slippage`; `src/executor/builder.rs`,
`TransactionBuilder::estimate_buy_token_amount`). -/

/-- Embedding of `calculate_buy_token_amount` (lightspeed_buy.rs:454-501).
Arguments are `u64` values; the source widens to `u128` for the intermediate
products, which `checkedMul128`/`checkedDivD` reproduce. -/
def calculate_buy_token_amount (realTokenReserves virtualTokenReserves
    virtualSolReserves solAmount : ℕ) : ℕ :=
  if solAmount = 0 then 0
  else if virtualTokenReserves = 0 ∨ virtualSolReserves = 0 then 0
  else
    -- FEE_BASIS_POINTS = 95, CREATOR_FEE = 30, BASIS_POINTS = 10000
    let totalFeeBasisPoints : ℕ := 95 + 30
    let inputAmount := checkedDivD (checkedMul128 solAmount 10000)
      (totalFeeBasisPoints + 10000) 0
    if inputAmount = 0 then 0
    else
      let denominator := virtualSolReserves + inputAmount
      let tokensReceived :=
        checkedDivD (checkedMul128 inputAmount virtualTokenReserves) denominator 0
      -- tokens_received.min(u64::MAX as u128) as u64, then .min(real_token_reserves)
      min (min tokensReceived U64MAX) realTokenReserves

/-- Embedding of `calculate_max_sol_cost_with_slippage` (lightspeed_buy.rs:506-521).
The source converts `slippage_percent: f64` to basis points with
`(slippage_percent * 100.0) as u64`, then computes in `u128` and narrows. -/
def calculate_max_sol_cost_with_slippage (solAmount : ℕ) (slippagePercent : ℚ) : ℕ :=
  let slippageBasisPoints := ratToU64 (slippagePercent * 100)
  u64Cast (checkedDivD (saturatingMul128 solAmount (10000 + slippageBasisPoints))
    10000 solAmount)

/-- Embedding of `estimate_buy_token_amount` (builder.rs:13-42), the estimator
used by the position manager as a fallback when the post-buy balance read fails. -/
def estimate_buy_token_amount (virtualTokenReserves virtualSolReserves
    solAmount : ℕ) : ℕ :=
  if solAmount = 0 then 0
  else if virtualSolReserves = 0 ∨ virtualTokenReserves = 0 then 0
  else
    let n := virtualSolReserves * virtualTokenReserves
    let i := virtualSolReserves + solAmount
    let r := n / i + 1
    let s := virtualTokenReserves - r
    min s U64MAX

/-! ### Aggregator data model (src: `src/aggregator.rs`) -/

/-- Embedding of `WindowEvent` (aggregator.rs:17-22). Timestamps are seconds
since the epoch, matching how the source constructs `DateTime` values from the
event's `i64` timestamp. -/
structure WindowEvent where
  isBuy : Bool
  solAmount : ℕ
  timestamp : ℤ
deriving DecidableEq

/-- Value of the `f64` acceleration metric: either the IEEE infinity the
source returns, or a finite value (modelled exactly as a rational). -/
inductive AccelValue
  | inf
  | val (q : ℚ)
deriving DecidableEq

/-- Signed SOL inflow of a slice of window events: buys positive, sells
negative, each `u64` amount cast with `as i64` as in the source
(aggregator.rs:138-158). Intermediate `i64` sum overflow is not modelled; the
claims settled here use amounts far below `2^63`. -/
def signedInflow (es : List WindowEvent) : ℤ :=
  (es.map fun e => if e.isBuy then u64ToI64 e.solAmount else -(u64ToI64 e.solAmount)).sum

/-- Embedding of `MintWindow::calculate_acceleration` (aggregator.rs:131-169). -/
def calculate_acceleration (es : List WindowEvent) : AccelValue :=
  if es.length < 4 then .val 0
  else
    let midPoint := es.length / 2
    let firstHalfInflow := signedInflow (es.take midPoint)
    let secondHalfInflow := signedInflow (es.drop midPoint)
    if firstHalfInflow ≤ 0 then
      if 0 < secondHalfInflow then .inf else .val 0
    else
      .val ((secondHalfInflow : ℚ) / (firstHalfInflow : ℚ))

/-- Acceleration as the specification's words describe it (spec §4.2
"Acceleration" and §8 invariant 7): split at the midpoint by count, signed
inflow per half, +∞ / 0 / ratio by the sign cases — with no special case for
small windows. Used to compare against `calculate_acceleration`. -/
def specAcceleration (es : List WindowEvent) : AccelValue :=
  let midPoint := es.length / 2
  let firstHalfInflow := signedInflow (es.take midPoint)
  let secondHalfInflow := signedInflow (es.drop midPoint)
  if firstHalfInflow ≤ 0 then
    if 0 < secondHalfInflow then .inf else .val 0
  else
    .val ((secondHalfInflow : ℚ) / (firstHalfInflow : ℚ))

/-- Embedding of `MintWindow` (aggregator.rs:25-33). Reserves are
`(virtual_sol_reserves, virtual_token_reserves)` pairs. -/
structure MintWindow where
  mint : ℕ
  events : List WindowEvent
  latestReserves : Option (ℕ × ℕ)
  createdAt : ℤ
  cumulativeBuysSol : ℚ
  thresholdTriggered : Bool
deriving DecidableEq

/-- Embedding of `MintWindow::new` (aggregator.rs:42-51); `now` is the wall
clock read the constructor performs. -/
def MintWindow.new (mint : ℕ) (now : ℤ) : MintWindow :=
  { mint := mint, events := [], latestReserves := none, createdAt := now
    cumulativeBuysSol := 0, thresholdTriggered := false }

/-- Embedding of `MintWindow::add_event` (aggregator.rs:54-76): accumulate the
buy amount, push the event at the back, pop stale events from the front while
the front predates `now - windowDuration`, then pop from the front down to
`maxEvents`. The front-eviction loop is exactly `List.dropWhile`; the size cap
is `List.drop (length - maxEvents)`. -/
def MintWindow.addEvent (w : MintWindow) (e : WindowEvent) (maxEvents : ℕ)
    (windowDuration : ℤ) (now : ℤ) : MintWindow :=
  let cumulative :=
    if e.isBuy then w.cumulativeBuysSol + (e.solAmount : ℚ) / 1000000000
    else w.cumulativeBuysSol
  let cutoffTime := now - windowDuration
  let evs := (w.events ++ [e]).dropWhile fun x => x.timestamp < cutoffTime
  let evs := evs.drop (evs.length - maxEvents)
  { w with events := evs, cumulativeBuysSol := cumulative }

/-- The aggregator-side configuration fields read by the modelled code paths
(src: `src/config.rs`). -/
structure AggConfig where
  windowDurationSecs : ℕ
  windowMaxEvents : ℕ
  enableThresholdTrigger : Bool
  thresholdObservationWindowSecs : ℕ
  thresholdCumulativeBuySol : ℚ
  thresholdBuyRatio : ℚ
  thresholdMinBuyAmountSol : ℚ
  thresholdMaxBuyAmountSol : ℚ
deriving DecidableEq

/-- Embedding of `MintWindow::check_threshold_trigger` (aggregator.rs:174-217).
`wallNow` is the `Utc::now()` read inside the function. The elapsed time is
`(now - created_at).num_seconds() as u64`, a two's-complement cast modelled by
`i64ToU64`. Returns the updated window and the buy amount if it just fired. -/
def checkThresholdTrigger (cfg : AggConfig) (w : MintWindow) (wallNow : ℤ) :
    MintWindow × Option ℚ :=
  if !cfg.enableThresholdTrigger then (w, none)
  else if w.thresholdTriggered then (w, none)
  else if cfg.thresholdObservationWindowSecs < i64ToU64 (wallNow - w.createdAt) then
    (w, none)
  else if cfg.thresholdCumulativeBuySol ≤ w.cumulativeBuysSol then
    let buyAmount :=
      min (max (cfg.thresholdCumulativeBuySol * cfg.thresholdBuyRatio)
        cfg.thresholdMinBuyAmountSol) cfg.thresholdMaxBuyAmountSol
    ({ w with thresholdTriggered := true }, some buyAmount)
  else (w, none)

/-- Embedding of `AdvancedMetrics` (src: `src/advanced_metrics.rs:21-42`).
`high_frequency_trades` is a `u32`; the `f64` fields are rationals. -/
structure AdvancedMetrics where
  curveSlope : ℚ
  weightedBuyPressure : ℚ
  highFrequencyTrades : ℕ
  avgPriceImpact : ℚ
  maxPriceImpact : ℚ
  liquidityDepth : ℚ
  volatility : ℚ
  weightedBuySellRatio : ℚ
  largeTradeRatio : ℚ
  tradeIntervalStd : ℚ
deriving DecidableEq

/-- Embedding of `WindowMetrics` (src: `src/types.rs`), the record the
aggregator emits per accepted trade. -/
structure WindowMetrics where
  mint : ℕ
  netInflowSol : ℤ
  buyRatio : ℚ
  acceleration : AccelValue
  latestVirtualSolReserves : ℕ
  latestVirtualTokenReserves : ℕ
  eventCount : ℕ
  thresholdBuyAmount : Option ℚ
  advancedMetrics : Option AdvancedMetrics
deriving DecidableEq

/-- Embedding of `MintWindow::calculate_metrics` (aggregator.rs:79-128).
The net inflow is `total_buy_sol as i64 - total_sell_sol as i64` over `u64`
accumulators, modelled with the `u64ToI64` casts. -/
def MintWindow.calculateMetrics (w : MintWindow) : WindowMetrics :=
  let buyCount := (w.events.filter fun e => e.isBuy).length
  let sellCount := (w.events.filter fun e => !e.isBuy).length
  let totalBuySol := ((w.events.filter fun e => e.isBuy).map fun e => e.solAmount).sum
  let totalSellSol := ((w.events.filter fun e => !e.isBuy).map fun e => e.solAmount).sum
  let totalCount := buyCount + sellCount
  let buyRatio : ℚ := if 0 < totalCount then (buyCount : ℚ) / (totalCount : ℚ) else 0
  let netInflowSol := u64ToI64 totalBuySol - u64ToI64 totalSellSol
  let acceleration := calculate_acceleration w.events
  let reserves :=
    match w.latestReserves with
    | some r => r
    | none => (0, 0)
  { mint := w.mint, netInflowSol := netInflowSol, buyRatio := buyRatio
    acceleration := acceleration, latestVirtualSolReserves := reserves.1
    latestVirtualTokenReserves := reserves.2, eventCount := w.events.length
    thresholdBuyAmount := none, advancedMetrics := none }

/-! ### Aggregator state machine (src: `src/aggregator.rs`, `Aggregator::start`,
`handle_trade_event`, `cleanup_old_windows`) -/

/-- Kind discriminant of a history entry (src: `src/types.rs`,
`PumpFunEventType`). -/
inductive PumpFunEventType
  | create
  | buy
  | sell
deriving DecidableEq

/-- Embedding of the analytical `PumpFunEvent` record kept in the per-token
event history (src: `src/types.rs`). -/
structure PumpFunEvent where
  mint : ℕ
  user : ℕ
  solAmount : ℕ
  tokenAmount : ℕ
  virtualSolReserves : ℕ
  virtualTokenReserves : ℕ
  timestamp : ℤ
  isBuy : Bool
  isDevTrade : Bool
  eventType : PumpFunEventType
deriving DecidableEq

/-- The fields of `TradeEventData` (src: `src/types.rs`) read by the
aggregator's trade path. Pubkeys are opaque naturals. -/
structure TradeEventData where
  mint : ℕ
  user : ℕ
  creator : ℕ
  isBuy : Bool
  solAmount : ℕ
  tokenAmount : ℕ
  virtualSolReserves : ℕ
  virtualTokenReserves : ℕ
  realSolReserves : ℕ
  realTokenReserves : ℕ
  timestamp : ℤ
deriving DecidableEq

/-- The fields of `CreateTokenEventData` (src: `src/types.rs`) read by the
aggregator's create path. -/
structure CreateTokenEventData where
  mint : ℕ
  creator : ℕ
  virtualSolReserves : ℕ
  virtualTokenReserves : ℕ
  tokenTotalSupply : ℕ
  timestamp : ℤ
deriving DecidableEq

/-- Aggregator shared state: the `DashMap` of windows and the `DashMap` of
event histories, modelled as partial maps keyed by mint. -/
structure AggState where
  windows : ℕ → Option MintWindow
  eventHistory : ℕ → Option (List PumpFunEvent)

/-- Pointwise update of a partial map. -/
def mapInsert {α : Type} (f : ℕ → Option α) (k : ℕ) (v : α) : ℕ → Option α :=
  fun x => if x = k then some v else f x

/-- Pointwise removal from a partial map. -/
def mapRemove {α : Type} (f : ℕ → Option α) (k : ℕ) : ℕ → Option α :=
  fun x => if x = k then none else f x

/-- The empty aggregator state (`Aggregator::new` starts with empty maps). -/
def AggState.init : AggState :=
  { windows := fun _ => none, eventHistory := fun _ => none }

/-- One operation the aggregator consumer performs: handling a trade event
(`now` is the cached clock used for window eviction, `wallNow` the direct
`Utc::now()` reads, `filterAccepted` the verdict of the stateful filter
chain, which short-circuits the handler when false), handling a create event,
handling a migrate event, or one sweeper round (`cleanup_old_windows`). -/
inductive AggOp
  | trade (t : TradeEventData) (now wallNow : ℤ) (filterAccepted : Bool)
  | create (c : CreateTokenEventData) (wallNow : ℤ)
  | migrate (mint : ℕ)
  | cleanup (now : ℤ) (maxAgeSecs : ℕ)

/-- The `or_insert_with(MintWindow::new)` read of the trade path
(aggregator.rs:426-429). -/
def tradeWindowBase (s : AggState) (t : TradeEventData) (wallNow : ℤ) : MintWindow :=
  match s.windows t.mint with
  | some w => w
  | none => MintWindow.new t.mint wallNow

/-- The trade path's window mutation before the threshold check
(aggregator.rs:433-453): update the latest reserves, then `add_event`. -/
def tradeWindowUpdated (cfg : AggConfig) (s : AggState) (t : TradeEventData)
    (now wallNow : ℤ) : MintWindow :=
  ({ tradeWindowBase s t wallNow with
      latestReserves := some (t.virtualSolReserves, t.virtualTokenReserves) }).addEvent
    { isBuy := t.isBuy, solAmount := t.solAmount, timestamp := t.timestamp }
    cfg.windowMaxEvents (cfg.windowDurationSecs : ℤ) now

/-- The analytical event the trade path derives (aggregator.rs:383-400) and
appends to the 100-capped history (aggregator.rs:408-422). -/
def tradeHistoryUpdated (s : AggState) (t : TradeEventData) : List PumpFunEvent :=
  let pumpfunEvent : PumpFunEvent :=
    { mint := t.mint, user := t.user, solAmount := t.solAmount
      tokenAmount := t.tokenAmount, virtualSolReserves := t.virtualSolReserves
      virtualTokenReserves := t.virtualTokenReserves, timestamp := t.timestamp
      isBuy := t.isBuy, isDevTrade := t.user = t.creator
      eventType := if t.isBuy then .buy else .sell }
  let history :=
    (match s.eventHistory t.mint with
     | some h => h
     | none => []) ++ [pumpfunEvent]
  history.drop (history.length - 100)

/-- Embedding of `Aggregator::handle_trade_event` (aggregator.rs:382-499):
filter, append to the (100-capped) event history, update reserves, add the
window event, run the threshold trigger, and build the metrics record with
the trigger result attached. The advanced-metrics attachment (computed from
the history when it has ≥ 5 events) does not affect the claims settled here
and is left as `none` in the emitted record. -/
def handleTradeEvent (cfg : AggConfig) (s : AggState) (t : TradeEventData)
    (now wallNow : ℤ) (filterAccepted : Bool) : AggState × Option WindowMetrics :=
  if !filterAccepted then (s, none)
  else
    let ct := checkThresholdTrigger cfg (tradeWindowUpdated cfg s t now wallNow) wallNow
    ({ windows := mapInsert s.windows t.mint ct.1
       eventHistory := mapInsert s.eventHistory t.mint (tradeHistoryUpdated s t) },
     some { ct.1.calculateMetrics with thresholdBuyAmount := ct.2 })

/-- One step of the aggregator consumer loop (`Aggregator::start`,
aggregator.rs:299-378, and the sweeper `cleanup_old_windows`,
aggregator.rs:523-550). Returns the new state and the emitted metrics record,
if any. -/
def aggStep (cfg : AggConfig) (s : AggState) : AggOp → AggState × Option WindowMetrics
  | .trade t now wallNow filterAccepted =>
      handleTradeEvent cfg s t now wallNow filterAccepted
  | .create c wallNow =>
      -- `windows.insert` and `event_history.insert` replace any existing entry.
      let createEvent : PumpFunEvent :=
        { mint := c.mint, user := c.creator, solAmount := 0
          tokenAmount := c.tokenTotalSupply, virtualSolReserves := c.virtualSolReserves
          virtualTokenReserves := c.virtualTokenReserves, timestamp := c.timestamp
          isBuy := false, isDevTrade := true, eventType := .create }
      ({ windows := mapInsert s.windows c.mint (MintWindow.new c.mint wallNow)
         eventHistory := mapInsert s.eventHistory c.mint [createEvent] }, none)
  | .migrate mint =>
      ({ windows := mapRemove s.windows mint
         eventHistory := mapRemove s.eventHistory mint }, none)
  | .cleanup now maxAgeSecs =>
      -- retain windows with created_at > now - max_age, then retain histories
      -- whose mint is still in the window map
      let cutoffTime := now - (maxAgeSecs : ℤ)
      let windows : ℕ → Option MintWindow := fun k =>
        match s.windows k with
        | some w => if cutoffTime < w.createdAt then some w else none
        | none => none
      let eventHistory : ℕ → Option (List PumpFunEvent) := fun k =>
        if (windows k).isSome then s.eventHistory k else none
      ({ windows := windows, eventHistory := eventHistory }, none)

/-- Run a sequence of aggregator operations, collecting the emitted metrics
records in order. -/
def aggRunEmissions (cfg : AggConfig) : AggState → List AggOp → List WindowMetrics
  | _, [] => []
  | s, op :: rest =>
      (aggStep cfg s op).2.toList ++ aggRunEmissions cfg (aggStep cfg s op).1 rest

/-- Number of emitted metrics records for `mint` that carry a
`threshold_buy_amount` (i.e. threshold-trigger buy signals for that token). -/
def countThresholdEmissions (mint : ℕ) (ms : List WindowMetrics) : ℕ :=
  (ms.filter fun m => m.mint = mint ∧ m.thresholdBuyAmount.isSome).length

/-! ### Position manager (src: `src/position.rs`) -/

/-- Embedding of `Position` (src: `src/types.rs:139-152`). -/
structure Position where
  mint : ℕ
  entryTime : ℤ
  entryPriceSol : ℚ
  tokenAmount : ℕ
  solInvested : ℕ
  bondingCurve : ℕ
  creatorVault : ℕ
  associatedBondingCurve : ℕ
  latestVirtualSolReserves : ℕ
  latestVirtualTokenReserves : ℕ
deriving DecidableEq

/-- The position-manager configuration fields read by the modelled code paths
(src: `src/config.rs`). `snipeAmountLamports` is
`Config::get_snipe_amount_lamports()`. -/
structure PMConfig where
  maxPositions : ℕ
  snipeAmountLamports : ℕ
  slippagePercent : ℚ
deriving DecidableEq

/-- The positions map (`HashMap<Pubkey, Position>`), modelled as an
association list with distinct keys. -/
def Positions : Type := List (ℕ × Position)

/-- Lookup in the positions map (`HashMap::get` / `contains_key`). -/
def findPos (positions : Positions) (mint : ℕ) : Option Position :=
  match positions with
  | [] => none
  | (k, v) :: rest => if k = mint then some v else findPos rest mint

/-- Removal from the positions map (`HashMap::remove`). -/
def erasePos (positions : Positions) (mint : ℕ) : Positions :=
  positions.filter fun q => q.1 ≠ mint

/-- Length of the positions map, on the representation. -/
def posLen (positions : Positions) : ℕ := positions.length

/-- Environment of one `handle_buy_signal` run: the outcomes of the chain
interactions the handler performs, in order. `assocCurveResult` is
`derive_associated_bonding_curve` (it reads the mint account over RPC and can
fail); `sendResult` is `LightSpeedBuyExecutor::execute_buy` (the signature on
success); `confirmOk` is the 30-second confirmation poll; `balanceResult` is
`get_token_balance` after confirmation; `creatorRead` is
`get_creator_from_bonding_curve`; `bondingCurve` and `creatorVault` are the
(pure, but externally defined) PDA derivations; `entryTime` is the
`Utc::now()` read when the position is recorded. -/
structure BuyEnv where
  bondingCurve : ℕ
  assocCurveResult : Option ℕ
  sendResult : Option ℕ
  confirmOk : Bool
  balanceResult : Option ℕ
  creatorRead : Option ℕ
  creatorVault : ℕ
  entryTime : ℤ
deriving DecidableEq

/-- Embedding of `PositionManager::handle_buy_signal` (position.rs:226-346).
Early returns leave the positions map unchanged; the position is inserted
only in the branch where the confirmation poll succeeded (and the
creator read, needed to build the record, also succeeded). -/
def handle_buy_signal (cfg : PMConfig) (positions : Positions)
    (m : WindowMetrics) (env : BuyEnv) : Positions :=
  if (findPos positions m.mint).isSome then positions
  else if cfg.maxPositions ≤ posLen positions then positions
  else
    let solAmount : ℕ :=
      match m.thresholdBuyAmount with
      | some thresholdAmount => ratToU64 (thresholdAmount * 1000000000)
      | none => cfg.snipeAmountLamports
    match env.assocCurveResult with
    | none => positions
    | some associatedBondingCurve =>
      match env.sendResult with
      | none => positions
      | some _signature =>
        if env.confirmOk then
          let actualTokenAmount : ℕ :=
            match env.balanceResult with
            | some balance => balance
            | none => estimate_buy_token_amount m.latestVirtualTokenReserves
                m.latestVirtualSolReserves solAmount
          let entryPriceSol : ℚ :=
            if 0 < actualTokenAmount then (solAmount : ℚ) / (actualTokenAmount : ℚ)
            else 0
          match env.creatorRead with
          | none => positions
          | some _creator =>
            (m.mint,
              { mint := m.mint, entryTime := env.entryTime
                entryPriceSol := entryPriceSol, tokenAmount := actualTokenAmount
                solInvested := solAmount, bondingCurve := env.bondingCurve
                creatorVault := env.creatorVault
                associatedBondingCurve := associatedBondingCurve
                latestVirtualSolReserves := m.latestVirtualSolReserves
                latestVirtualTokenReserves := m.latestVirtualTokenReserves })
              :: positions
        else positions

/-- Environment of one `handle_sell_signal` run. `queryOk` tells whether
`get_token_balance` succeeded; `chainBalance` is the actual on-chain token
balance at send time (returned by the query when it succeeds); `execOk` is
`SolTradeSellExecutor::execute_sell`; `confirmOk` is the 10-second
confirmation poll (its outcome is logged but does not change the state). -/
structure SellEnv where
  queryOk : Bool
  chainBalance : ℕ
  execOk : Bool
  confirmOk : Bool
deriving DecidableEq

/-- Embedding of `PositionManager::handle_sell_signal` (position.rs:349-503).
Returns the new positions map and the token amount requested in the sell
instruction (`SellParams::input_token_amount`), `none` when no sell was
submitted. On the balance-query success path the requested amount is
`min(actual_balance, position.token_amount)` and a zero amount removes the
position without submitting; on the query-error path the recorded
`position.token_amount` is requested. The position is removed whenever
`execute_sell` returned Ok (regardless of the confirmation poll), and kept
when it returned Err. -/
def handle_sell_signal (positions : Positions) (m : WindowMetrics)
    (env : SellEnv) : Positions × Option ℕ :=
  match findPos positions m.mint with
  | none => (positions, none)
  | some position =>
    if env.queryOk then
      -- let sell_amount = actual_balance.min(position.token_amount)
      if min env.chainBalance position.tokenAmount = 0 then
        (erasePos positions m.mint, none)
      else if env.execOk then
        (erasePos positions m.mint, some (min env.chainBalance position.tokenAmount))
      else (positions, some (min env.chainBalance position.tokenAmount))
    else
      if env.execOk then (erasePos positions m.mint, some position.tokenAmount)
      else (positions, some position.tokenAmount)

/-- One operation of the position-manager consumer loop
(`PositionManager::start`, position.rs:108-141). A `buySignal` dispatches
`handle_buy_signal`; a `sellSignal` covers `handle_sell_signal` whether
invoked on a Sell signal, by the momentum-decay detector, or by a critical
monitor alert; a `holdSignal` re-runs the exit evaluator (`exitSell` is its
verdict) and sells when it says so. -/
inductive PMOp
  | buySignal (m : WindowMetrics) (env : BuyEnv)
  | sellSignal (m : WindowMetrics) (env : SellEnv)
  | holdSignal (m : WindowMetrics) (exitSell : Bool) (env : SellEnv)

/-- One position-manager step. -/
def pmStep (cfg : PMConfig) (positions : Positions) : PMOp → Positions
  | .buySignal m env => handle_buy_signal cfg positions m env
  | .sellSignal m env => (handle_sell_signal positions m env).1
  | .holdSignal m exitSell env =>
      if exitSell then (handle_sell_signal positions m env).1 else positions

/-- Run a sequence of position-manager operations. -/
def pmRun (cfg : PMConfig) (positions : Positions) : List PMOp → Positions
  | [] => positions
  | op :: rest => pmRun cfg (pmStep cfg positions op) rest

/-- The positions-map invariant of spec §8 (1)-(2): at most one entry per
token and at most `max_positions` entries in total. -/
def PMInv (cfg : PMConfig) (positions : Positions) : Prop :=
  (positions.map Prod.fst).Nodup ∧ posLen positions ≤ cfg.maxPositions

instance (cfg : PMConfig) (positions : Positions) : Decidable (PMInv cfg positions) :=
  inferInstanceAs (Decidable (_ ∧ _))

/-! ### Dynamic strategy engine (src: `src/dynamic_strategy.rs`) -/

/-- Embedding of `BuyTriggers` (dynamic_strategy.rs:46-63).
`min_high_frequency_trades` is a `u32`. -/
structure BuyTriggers where
  minBuyRatio : ℚ
  minNetInflowSol : ℚ
  minAcceleration : ℚ
  maxSlippage : ℚ
  minHighFrequencyTrades : ℕ
  minLiquidityDepth : ℚ
  maxPriceImpact : ℚ
  minCompositeScore : ℚ
deriving DecidableEq

/-- Embedding of `AdaptiveParams` (dynamic_strategy.rs:82-91). -/
structure AdaptiveParams where
  enableVolatilityAdaptation : Bool
  enableTimeAdaptation : Bool
  enableSuccessFeedback : Bool
  volatilityAdjustmentFactor : ℚ
deriving DecidableEq

/-- The fields of `DynamicStrategyConfig` the buy evaluation reads
(dynamic_strategy.rs:33-42; the sell triggers are not read by it). -/
structure DynamicStrategyConfig where
  buyTriggers : BuyTriggers
  adaptiveParams : AdaptiveParams
deriving DecidableEq

/-- The `balanced()` preset (dynamic_strategy.rs:132-159), buy side. -/
def balancedConfig : DynamicStrategyConfig :=
  { buyTriggers :=
      { minBuyRatio := 70/100, minNetInflowSol := 1, minAcceleration := 12/10
        maxSlippage := 5/100, minHighFrequencyTrades := 3
        minLiquidityDepth := 5/10, maxPriceImpact := 5/100
        minCompositeScore := 5/10 }
    adaptiveParams :=
      { enableVolatilityAdaptation := true, enableTimeAdaptation := true
        enableSuccessFeedback := true, volatilityAdjustmentFactor := 1 } }

/-- Embedding of `adapt_to_volatility` (dynamic_strategy.rs:399-415): the
adjustment factor written into `adaptive_params.volatility_adjustment_factor`. -/
def adapt_to_volatility (volatility : ℚ) : ℚ :=
  if 15/100 < volatility then 8/10
  else if volatility < 5/100 then 12/10
  else 1

/-- Comparison `metrics.acceleration >= threshold` on the `f64` acceleration,
where the value may be the IEEE infinity. -/
def accelGE (a : AccelValue) (threshold : ℚ) : Bool :=
  match a with
  | .inf => true
  | .val v => threshold ≤ v

/-- The term `(metrics.acceleration / 2.0).min(1.0)` of the composite score,
on the possibly-infinite acceleration. -/
def accelScore (a : AccelValue) : ℚ :=
  match a with
  | .inf => 1
  | .val v => min (v / 2) 1

/-- Embedding of `calculate_composite_score` (dynamic_strategy.rs:432-444). -/
def calculate_composite_score (m : WindowMetrics) (adv : AdvancedMetrics) : ℚ :=
  let buyRatioScore := m.buyRatio
  let netInflowScore := min ((m.netInflowSol : ℚ) / 1000000000 / 2) 1
  let accelerationScore := accelScore m.acceleration
  let liquidityScore := adv.liquidityDepth
  let frequencyScore := min ((adv.highFrequencyTrades : ℚ) / 10) 1
  buyRatioScore * (25/100) + netInflowScore * (25/100)
    + accelerationScore * (20/100) + liquidityScore * (15/100)
    + frequencyScore * (15/100)

/-- The eight predicate outcomes of `evaluate_buy`
(dynamic_strategy.rs:215-373), in source order, against a set of triggers. -/
def buyPredicates (t : BuyTriggers) (m : WindowMetrics) (adv : AdvancedMetrics) :
    List Bool :=
  [ decide (t.minBuyRatio ≤ m.buyRatio)
  , decide (t.minNetInflowSol ≤ (m.netInflowSol : ℚ) / 1000000000)
  , accelGE m.acceleration t.minAcceleration
  , decide (t.minHighFrequencyTrades ≤ adv.highFrequencyTrades)
  , decide (t.minLiquidityDepth ≤ adv.liquidityDepth)
  , decide (adv.avgPriceImpact ≤ t.maxPriceImpact)
  , decide (adv.volatility * 2 ≤ t.maxSlippage)
  , decide (t.minCompositeScore ≤ calculate_composite_score m adv) ]

/-- The per-predicate confidence weights of `evaluate_buy`, in source order. -/
def buyWeights : List ℚ := [20/100, 20/100, 15/100, 10/100, 10/100, 10/100, 10/100, 5/100]

/-- Confidence: the sum of the weights of the passing predicates. -/
def confidenceOf (passes : List Bool) : ℚ :=
  ((passes.zip buyWeights).map fun p => if p.1 then p.2 else 0).sum

/-- Embedding of `DynamicStrategyEngine::evaluate_buy`
(dynamic_strategy.rs:215-373) together with the `adapt_parameters` call it
makes first. Returns (should_buy, confidence, the
`volatility_adjustment_factor` stored by `adapt_to_volatility`, which is the
only engine-state change). The eight comparisons read
`self.config.buy_triggers` directly. -/
def evaluate_buy (cfg : DynamicStrategyConfig) (m : WindowMetrics)
    (adv : AdvancedMetrics) : Bool × ℚ × ℚ :=
  let factor :=
    if cfg.adaptiveParams.enableVolatilityAdaptation then
      adapt_to_volatility adv.volatility
    else cfg.adaptiveParams.volatilityAdjustmentFactor
  let passes := buyPredicates cfg.buyTriggers m adv
  let passedConditions := passes.count true
  let totalConditions := passes.length
  let confidence := confidenceOf passes
  let shouldBuy := decide ((7 : ℚ)/10 ≤ (passedConditions : ℚ) / (totalConditions : ℚ))
  (shouldBuy, confidence, factor)

/-- Thresholds as the specification's words describe them after adaptation:
every threshold of the active mode multiplied by the volatility factor
(spec §4.4 step 4: "Before evaluation, adapt thresholds: multiply by 0.8 if
volatility > 0.15, by 1.2 if < 0.05, else 1.0"). The `u32`
high-frequency-trade threshold is scaled in the rationals. -/
def specScaledPredicates (factor : ℚ) (t : BuyTriggers) (m : WindowMetrics)
    (adv : AdvancedMetrics) : List Bool :=
  [ decide (t.minBuyRatio * factor ≤ m.buyRatio)
  , decide (t.minNetInflowSol * factor ≤ (m.netInflowSol : ℚ) / 1000000000)
  , accelGE m.acceleration (t.minAcceleration * factor)
  , decide ((t.minHighFrequencyTrades : ℚ) * factor ≤ (adv.highFrequencyTrades : ℚ))
  , decide (t.minLiquidityDepth * factor ≤ adv.liquidityDepth)
  , decide (adv.avgPriceImpact ≤ t.maxPriceImpact * factor)
  , decide (adv.volatility * 2 ≤ t.maxSlippage * factor)
  , decide (t.minCompositeScore * factor ≤ calculate_composite_score m adv) ]

/-- Buy evaluation as the claim reads the specification: the eight predicates
compare against the mode's thresholds scaled by the volatility factor. -/
def spec_evaluate_buy_scaled (cfg : DynamicStrategyConfig) (m : WindowMetrics)
    (adv : AdvancedMetrics) : Bool × ℚ :=
  let factor := adapt_to_volatility adv.volatility
  let passes := specScaledPredicates factor cfg.buyTriggers m adv
  let passedConditions := passes.count true
  let totalConditions := passes.length
  let confidence := confidenceOf passes
  (decide ((7 : ℚ)/10 ≤ (passedConditions : ℚ) / (totalConditions : ℚ)), confidence)

/-! ### Created-in-same-tx flag (src: `src/grpc/client.rs:211-225`,
`src/grpc/parser.rs:17-37`) -/

/-- Event discriminator `CREATE_TOKEN_EVENT` (parser.rs:19-20), 16 bytes. -/
def CREATE_TOKEN_EVENT : List ℕ :=
  [228, 69, 165, 46, 81, 203, 154, 29, 27, 114, 169, 77, 222, 235, 99, 118]

/-- Instruction discriminator `CREATE_TOKEN_IX` (parser.rs:27), 8 bytes. -/
def CREATE_TOKEN_IX : List ℕ := [24, 30, 200, 40, 5, 28, 7, 119]

/-- A transaction's log line, reduced to its decoded payload: `some bytes`
when the line contains "Program data: " and the base64 decode succeeds,
`none` otherwise. String search and base64 are abstracted away; the byte-level
predicate is what the source tests. -/
abbrev LogPayload : Type := Option (List ℕ)

/-- The per-log test of the `is_created_buy` scan (client.rs:214-225):
payload decoded, at least 16 bytes long, and starting with the 8 bytes of
`CREATE_TOKEN_IX`. -/
def logIsCreatePayload (l : LogPayload) : Bool :=
  match l with
  | some d => decide (16 ≤ d.length) && decide (d.take 8 = CREATE_TOKEN_IX)
  | none => false

/-- Embedding of the `is_created_buy` computation in `GrpcClient::handle_update`
(client.rs:214-225): true iff any log of the transaction passes
`logIsCreatePayload`. This one flag is then passed to `parse_pumpfun_event`
for every log of the same transaction, so every Trade event of the
transaction carries it. -/
def is_created_buy (logs : List LogPayload) : Bool :=
  logs.any logIsCreatePayload

/-- The flag as the claim reads the specification: true iff some log payload
in the transaction carries the 16-byte Create event discriminator
(spec §4.1: payloads begin with a 16-byte discriminator; the flag is "set
true iff any log payload in the same transaction carries the Create
discriminator"). -/
def spec_carries_create_discriminator (logs : List LogPayload) : Bool :=
  logs.any fun l =>
    match l with
    | some d => decide (d.take 16 = CREATE_TOKEN_EVENT)
    | none => false

/-! ### Auxiliary predicates and concrete instances used by the theorems -/

/-- Well-formed aggregator state: every stored window is keyed by its own
mint (all inserting paths create windows with `MintWindow::new(mint)`). -/
def AggWF (s : AggState) : Prop := ∀ k w, s.windows k = some w → w.mint = k

/-- Whether an aggregator operation is a trade-handling step. -/
def AggOp.isTradeOp : AggOp → Bool
  | .trade _ _ _ _ => true
  | _ => false

/-- The one-shot threshold flag of a token's window (false when absent). -/
def flagSet (s : AggState) (mint : ℕ) : Bool :=
  match s.windows mint with
  | some w => w.thresholdTriggered
  | none => false

/-- A two-event window whose first half is a net sell and second half a net
buy: the source returns 0 (the small-window guard), the spec formula +∞. -/
def tinyWindowEvents : List WindowEvent :=
  [{ isBuy := false, solAmount := 5, timestamp := 0 },
   { isBuy := true, solAmount := 5, timestamp := 0 }]

/-- A stale window (one event at time 100, created at 0) into which an event
with timestamp 0 is pushed at cached time 100 (window duration 10 s). -/
def staleWindow : MintWindow :=
  { mint := 1, events := [{ isBuy := true, solAmount := 1, timestamp := 100 }]
    latestReserves := none, createdAt := 0, cumulativeBuysSol := 0
    thresholdTriggered := false }

/-- The out-of-order event appended to `staleWindow`. -/
def staleEvent : WindowEvent := { isBuy := true, solAmount := 1, timestamp := 0 }

/-- Configuration used by the position-manager witnesses. -/
def pmCfg : PMConfig :=
  { maxPositions := 3, snipeAmountLamports := 500000000, slippagePercent := 5 }

/-- Metrics record used by the position-manager witnesses. -/
def pmMetrics : WindowMetrics :=
  { mint := 1, netInflowSol := 0, buyRatio := 0, acceleration := .val 0
    latestVirtualSolReserves := 30000000000
    latestVirtualTokenReserves := 1000000000000000, eventCount := 0
    thresholdBuyAmount := none, advancedMetrics := none }

/-- A buy environment whose confirmation poll failed. -/
def failedConfirmEnv : BuyEnv :=
  { bondingCurve := 11, assocCurveResult := some 12, sendResult := some 99
    confirmOk := false, balanceResult := some 1000, creatorRead := some 7
    creatorVault := 13, entryTime := 0 }

/-- The recorded position used by the sell counterexample: 5 tokens. -/
def soldPosition : Position :=
  { mint := 1, entryTime := 0, entryPriceSol := 0, tokenAmount := 5
    solInvested := 1000, bondingCurve := 2, creatorVault := 3
    associatedBondingCurve := 4, latestVirtualSolReserves := 0
    latestVirtualTokenReserves := 0 }

/-- Advanced metrics with volatility 0.20 (> 0.15), used by the C5
counterexample. -/
def volatileAdv : AdvancedMetrics :=
  { curveSlope := 0, weightedBuyPressure := 0, highFrequencyTrades := 3
    avgPriceImpact := 3/100, maxPriceImpact := 0, liquidityDepth := 55/100
    volatility := 2/10, weightedBuySellRatio := 0, largeTradeRatio := 0
    tradeIntervalStd := 0 }

/-- Window metrics sitting between the configured balanced thresholds and the
0.8-scaled thresholds, used by the C5 counterexample. -/
def volatileMetrics : WindowMetrics :=
  { mint := 1, netInflowSol := 900000000, buyRatio := 6/10
    acceleration := .val 1, latestVirtualSolReserves := 30000000000
    latestVirtualTokenReserves := 1000000000000000, eventCount := 10
    thresholdBuyAmount := none, advancedMetrics := none }

/-- Aggregator configuration with the threshold trigger enabled (cumulative
threshold 2 SOL, ratio 0.5, clamp [0.2, 1]). -/
def thresholdCfg : AggConfig :=
  { windowDurationSecs := 60, windowMaxEvents := 50, enableThresholdTrigger := true
    thresholdObservationWindowSecs := 60, thresholdCumulativeBuySol := 2
    thresholdBuyRatio := 1/2, thresholdMinBuyAmountSol := 1/5
    thresholdMaxBuyAmountSol := 1 }

/-- A 3-SOL buy on mint 7, enough to cross the cumulative threshold alone. -/
def bigBuyTrade : TradeEventData :=
  { mint := 7, user := 2, creator := 3, isBuy := true, solAmount := 3000000000
    tokenAmount := 1000, virtualSolReserves := 30000000000
    virtualTokenReserves := 1000000000000000, realSolReserves := 0
    realTokenReserves := 0, timestamp := 0 }

/-! ## Theorems -/

/-! ### C7 — acceleration case analysis -/

/-- C7 counterexample: on a window of fewer than 4 events whose first half
inflow is ≤ 0 and second half inflow is > 0, `calculate_acceleration`
returns 0 while the claimed case analysis requires +∞. -/
theorem acceleration_small_window_counterexample :
    signedInflow (tinyWindowEvents.take (tinyWindowEvents.length / 2)) ≤ 0 ∧
    0 < signedInflow (tinyWindowEvents.drop (tinyWindowEvents.length / 2)) ∧
    calculate_acceleration tinyWindowEvents = .val 0 ∧
    specAcceleration tinyWindowEvents = .inf ∧
    calculate_acceleration tinyWindowEvents ≠ specAcceleration tinyWindowEvents := by
  decide

/-- C7 (amended): the acceleration metric follows the claimed case analysis
(+∞ / 0 / ratio on the signed half-window inflows) exactly for windows of at
least 4 events; every window with fewer than 4 events yields 0. -/
theorem acceleration_cases_with_small_window_guard (es : List WindowEvent) :
    calculate_acceleration es =
      if es.length < 4 then .val 0 else specAcceleration es := by
  by_cases h : es.length < 4 <;>
    simp [calculate_acceleration, specAcceleration, h]

/-! ### C9 — window duration invariant -/

/-- On a list whose timestamps are in non-decreasing order, every survivor of
the stale-front eviction loop (`dropWhile`) is at or after the cutoff. -/
theorem mem_dropWhile_cutoff_le {c : ℤ} :
    ∀ (l : List WindowEvent),
      l.Pairwise (fun a b => a.timestamp ≤ b.timestamp) →
      ∀ x ∈ l.dropWhile (fun y => decide (y.timestamp < c)), c ≤ x.timestamp := by
  intro l
  induction l with
  | nil => intro _ x hx; simp [List.dropWhile] at hx
  | cons a l ih =>
    intro hp x hx
    rw [List.pairwise_cons] at hp
    by_cases h : a.timestamp < c
    · rw [List.dropWhile_cons_of_pos (by simpa using h)] at hx
      exact ih hp.2 x hx
    · rw [List.dropWhile_cons_of_neg (by simpa using h)] at hx
      rcases List.mem_cons.mp hx with rfl | hx'
      · omega
      · exact le_trans (by omega) (hp.1 x hx')

/-- C9 counterexample: after `add_event` at cached time 100 with a 10-second
window, the window still contains the appended event with timestamp 0, which
predates 100 − 10: the front-only eviction stops at the newer front event. -/
theorem add_event_keeps_stale_event_counterexample :
    (staleWindow.addEvent staleEvent 10 10 100).events =
      [{ isBuy := true, solAmount := 1, timestamp := 100 }, staleEvent] ∧
    ((staleWindow.addEvent staleEvent 10 10 100).events.all
      fun x => decide ((100 : ℤ) - 10 ≤ x.timestamp)) = false := by
  decide

/-- C9 (amended): when the stored events and the appended event are in
non-decreasing timestamp order — the situation the source is built for, since
events are appended in arrival order with monotone timestamps — every event
surviving `add_event` is at or after `now - window_duration`. For
out-of-order timestamps only the front event is evicted and the invariant can
fail (see the counterexample). -/
theorem add_event_respects_duration_of_sorted (w : MintWindow) (e : WindowEvent)
    (maxEvents : ℕ) (dur now : ℤ)
    (hsorted : (w.events ++ [e]).Pairwise fun a b => a.timestamp ≤ b.timestamp) :
    ((w.addEvent e maxEvents dur now).events.all
      fun x => decide (now - dur ≤ x.timestamp)) = true := by
  rw [List.all_eq_true]
  intro x hx
  have hx₂ : x ∈ ((w.events ++ [e]).dropWhile fun y => decide (y.timestamp < now - dur)) := by
    apply List.drop_subset
    simpa [MintWindow.addEvent] using hx
  simpa using mem_dropWhile_cutoff_le (w.events ++ [e]) hsorted x hx₂

/-- C9 witness: a sorted two-event window plus a fresh event; the sorted
hypothesis is discharged by computation and the invariant holds. -/
theorem add_event_respects_duration_witness :
    ((staleWindow.addEvent { isBuy := false, solAmount := 2, timestamp := 105 }
        10 10 100).events.all fun x => decide ((100 : ℤ) - 10 ≤ x.timestamp)) = true :=
  add_event_respects_duration_of_sorted staleWindow
    { isBuy := false, solAmount := 2, timestamp := 105 } 10 10 100 (by decide)

/-! ### C4 — created-in-same-tx flag -/

/-- C4 counterexample: a transaction with a single log payload that is
exactly the 16-byte Create event discriminator does not set the flag, while
a payload starting with the 8-byte Create instruction discriminator (which
carries no Create event discriminator) does — the claimed "iff" fails in both
directions. -/
theorem created_flag_discriminator_counterexample :
    is_created_buy [some CREATE_TOKEN_EVENT] = false ∧
    spec_carries_create_discriminator [some CREATE_TOKEN_EVENT] = true ∧
    is_created_buy [some (CREATE_TOKEN_IX ++ [0, 0, 0, 0, 0, 0, 0, 0])] = true ∧
    spec_carries_create_discriminator
      [some (CREATE_TOKEN_IX ++ [0, 0, 0, 0, 0, 0, 0, 0])] = false := by
  decide

/-- C4 (amended): the created-in-same-tx flag attached to a transaction's
Trade events is true iff some log payload of the transaction is at least 16
bytes long and begins with the 8-byte Create instruction discriminator
24,30,200,40,5,28,7,119 — not the 16-byte Create event discriminator. -/
theorem created_flag_iff_create_ix_prefix (logs : List LogPayload) :
    is_created_buy logs = true ↔
      ∃ d, some d ∈ logs ∧ 16 ≤ d.length ∧ d.take 8 = CREATE_TOKEN_IX := by
  unfold is_created_buy
  rw [List.any_eq_true]
  constructor
  · rintro ⟨l, hl, hp⟩
    cases l with
    | none => simp [logIsCreatePayload] at hp
    | some d =>
      have hp' : 16 ≤ d.length ∧ d.take 8 = CREATE_TOKEN_IX := by
        simpa [logIsCreatePayload] using hp
      exact ⟨d, hl, hp'.1, hp'.2⟩
  · rintro ⟨d, hd, h1, h2⟩
    exact ⟨some d, hd, by simp [logIsCreatePayload, h1, h2]⟩

/-! ### C1 — buy confirmation gates position recording -/

/-- Case analysis of `handle_buy_signal`: either the positions map is
returned unchanged, or a fresh entry for the metrics' mint is prepended — and
then the mint was absent, the map was strictly below `max_positions`, the
transaction was sent and confirmation succeeded. -/
theorem handle_buy_signal_cases (cfg : PMConfig) (positions : Positions)
    (m : WindowMetrics) (env : BuyEnv) :
    handle_buy_signal cfg positions m env = positions ∨
    ∃ p, handle_buy_signal cfg positions m env = (m.mint, p) :: positions ∧
      findPos positions m.mint = none ∧ posLen positions < cfg.maxPositions ∧
      env.sendResult.isSome = true ∧ env.confirmOk = true := by
  unfold handle_buy_signal
  rcases hf : findPos positions m.mint with _ | p
  · rw [if_neg (by simp)]
    by_cases h2 : cfg.maxPositions ≤ posLen positions
    · left; rw [if_pos h2]
    · rw [if_neg h2]
      rcases hA : env.assocCurveResult with _ | abc
      · exact Or.inl rfl
      · rcases hS : env.sendResult with _ | sig
        · exact Or.inl rfl
        · rcases hC : env.confirmOk
          · exact Or.inl rfl
          · rcases hR : env.creatorRead with _ | creator
            · exact Or.inl rfl
            · right
              exact ⟨_, rfl, rfl, Nat.lt_of_not_le h2, by simp [hS], rfl⟩
  · exact Or.inl (by rw [if_pos (by simp)])

/-- C1: an attempted buy leaves the positions map unchanged whenever the
confirmation poll fails or times out, and a position entry can appear for
the mint only when the transaction was sent and the confirmation poll
succeeded. -/
theorem buy_confirmation_gates_position (cfg : PMConfig) (positions : Positions)
    (m : WindowMetrics) (env : BuyEnv) :
    (env.confirmOk = false → handle_buy_signal cfg positions m env = positions) ∧
    ((findPos (handle_buy_signal cfg positions m env) m.mint).isSome = true →
      (findPos positions m.mint).isSome = true ∨
        (env.sendResult.isSome = true ∧ env.confirmOk = true)) := by
  rcases handle_buy_signal_cases cfg positions m env with heq | ⟨p, heq, _, _, hsend, hconf⟩
  · rw [heq]; exact ⟨fun _ => rfl, fun hs => Or.inl hs⟩
  · constructor
    · intro hcf; exact absurd hconf (by simp [hcf])
    · intro _; exact Or.inr ⟨hsend, hconf⟩

/-- C1 witness: a sent buy whose confirmation poll failed leaves the empty
positions map empty. -/
theorem buy_confirmation_gates_position_witness :
    handle_buy_signal pmCfg [] pmMetrics failedConfirmEnv = [] :=
  (buy_confirmation_gates_position pmCfg [] pmMetrics failedConfirmEnv).1 rfl

/-! ### C3 — sell amount versus on-chain balance -/

/-- C3 counterexample: when the balance query errors while the actual
on-chain balance is 3 tokens, the sell path requests the recorded 5 tokens —
more than the balance at send time. -/
theorem sell_amount_exceeds_balance_counterexample :
    (handle_sell_signal [(1, soldPosition)] pmMetrics
      { queryOk := false, chainBalance := 3, execOk := true, confirmOk := true }).2
      = some 5 ∧ ¬ (5 ≤ 3) := by
  constructor
  · rfl
  · decide

/-- C3 (amended): on every sell path on which the balance query succeeds, the
requested token amount is `min(actual_balance, recorded_amount)` and hence at
most the on-chain balance read at send time; on the query-error path the
recorded position amount is requested instead, which can exceed the balance
(see the counterexample). -/
theorem sell_amount_bounded_on_query_success (positions : Positions)
    (m : WindowMetrics) (env : SellEnv) (h : env.queryOk = true) :
    (handle_sell_signal positions m env).2.getD 0 ≤ env.chainBalance := by
  unfold handle_sell_signal
  rcases hf : findPos positions m.mint with _ | p
  · simp
  · rw [h]
    dsimp only
    by_cases h0 : min env.chainBalance p.tokenAmount = 0
    · rw [if_pos h0]; simp
    · rw [if_neg h0]
      rcases hE : env.execOk <;> simp

/-- C3 witness: with a successful balance query of 3 tokens against a
recorded 5, the requested amount is bounded by 3. -/
theorem sell_amount_bounded_on_query_success_witness :
    (handle_sell_signal [(1, soldPosition)] pmMetrics
      { queryOk := true, chainBalance := 3, execOk := true, confirmOk := true }).2.getD 0
      ≤ 3 :=
  sell_amount_bounded_on_query_success [(1, soldPosition)] pmMetrics
    { queryOk := true, chainBalance := 3, execOk := true, confirmOk := true } rfl

/-! ### C8 — positions-map invariants -/

/-- Characterization of `findPos … = none`: the mint is absent from the keys. -/
theorem findPos_eq_none_iff (positions : Positions) (mint : ℕ) :
    findPos positions mint = none ↔ mint ∉ positions.map Prod.fst := by
  induction positions with
  | nil => simp [findPos]
  | cons q rest ih =>
    by_cases h : q.1 = mint
    · simp [findPos, h]
    · simp [findPos, h, ih, Ne.symm h]

/-- `handle_sell_signal` either leaves the map unchanged or removes the
metrics' mint. -/
theorem handle_sell_signal_fst_cases (positions : Positions)
    (m : WindowMetrics) (env : SellEnv) :
    (handle_sell_signal positions m env).1 = positions ∨
    (handle_sell_signal positions m env).1 = erasePos positions m.mint := by
  unfold handle_sell_signal
  rcases hf : findPos positions m.mint with _ | p
  · exact Or.inl rfl
  · rcases hq : env.queryOk
    · rcases hE : env.execOk
      · exact Or.inl rfl
      · exact Or.inr rfl
    · dsimp only
      by_cases h0 : min env.chainBalance p.tokenAmount = 0
      · exact Or.inr (by rw [if_pos h0]; simp)
      · rcases hE : env.execOk
        · exact Or.inl (by rw [if_neg h0]; simp)
        · exact Or.inr (by rw [if_neg h0]; simp)

/-- Removal is a sublist, so it preserves both invariants. -/
theorem erasePos_sublist (positions : Positions) (mint : ℕ) :
    (erasePos positions mint).Sublist positions :=
  List.filter_sublist positions

/-- One position-manager step preserves the positions-map invariant. -/
theorem pmStep_preserves_inv (cfg : PMConfig) (positions : Positions)
    (op : PMOp) (h : PMInv cfg positions) : PMInv cfg (pmStep cfg positions op) := by
  have sellCase : ∀ (m : WindowMetrics) (env : SellEnv),
      PMInv cfg (handle_sell_signal positions m env).1 := by
    intro m env
    rcases handle_sell_signal_fst_cases positions m env with heq | heq
    · rw [heq]; exact h
    · rw [heq]
      refine ⟨?_, ?_⟩
      · exact h.1.sublist ((erasePos_sublist positions m.mint).map Prod.fst)
      · exact le_trans (List.Sublist.length_le (erasePos_sublist positions m.mint)) h.2
  cases op with
  | buySignal m env =>
    rcases handle_buy_signal_cases cfg positions m env with heq | ⟨p, heq, hnone, hlen, _, _⟩
    · simpa [pmStep, heq] using h
    · simp only [pmStep, heq]
      refine ⟨?_, ?_⟩
      · rw [List.map_cons, List.nodup_cons]
        exact ⟨(findPos_eq_none_iff positions m.mint).mp hnone, h.1⟩
      · simp only [posLen, List.length_cons] at hlen ⊢
        have h2 := h.2
        simp only [posLen] at h2
        omega
  | sellSignal m env => exact sellCase m env
  | holdSignal m exitSell env =>
    by_cases hx : exitSell = true
    · simpa [pmStep, hx] using sellCase m env
    · simpa [pmStep, hx] using h

/-- C8: along every sequence of position-manager operations from a state
satisfying the invariant, the positions map keeps at most one entry per token
and at most `max_positions` entries in total; in particular a Buy signal for
a mint with an existing position, or one arriving at capacity, adds nothing. -/
theorem positions_map_invariant (cfg : PMConfig) (ops : List PMOp) :
    ∀ positions : Positions, PMInv cfg positions →
      PMInv cfg (pmRun cfg positions ops) := by
  induction ops with
  | nil => intro positions h; exact h
  | cons op rest ih =>
    intro positions h
    exact ih (pmStep cfg positions op) (pmStep_preserves_inv cfg positions op h)

/-- C8 witness: running a double-entry attempt, a sell and a hold from the
empty map keeps the invariant. -/
theorem positions_map_invariant_witness :
    PMInv pmCfg (pmRun pmCfg []
      [ .buySignal pmMetrics failedConfirmEnv
      , .sellSignal pmMetrics { queryOk := true, chainBalance := 3, execOk := true, confirmOk := true }
      , .holdSignal pmMetrics false { queryOk := true, chainBalance := 3, execOk := true, confirmOk := true } ]) :=
  positions_map_invariant pmCfg _ [] (by constructor <;> simp [posLen, pmCfg])

/-! ### C5 — volatility adaptation of thresholds -/

/-- C5 counterexample: with balanced-mode thresholds and volatility 0.20, the
source's `evaluate_buy` rejects (3 of 8 predicates pass against the
configured thresholds), while the evaluation against thresholds scaled by 0.8
— what the claim asserts happens — accepts (7 of 8 pass): the comparisons in
`evaluate_buy` do not use the scaled thresholds. -/
theorem volatility_scaling_counterexample :
    (15 : ℚ)/100 < volatileAdv.volatility ∧
    adapt_to_volatility volatileAdv.volatility = 8/10 ∧
    (evaluate_buy balancedConfig volatileMetrics volatileAdv).1 = false ∧
    (spec_evaluate_buy_scaled balancedConfig volatileMetrics volatileAdv).1 = true := by
  refine ⟨by norm_num [volatileAdv], by norm_num [adapt_to_volatility, volatileAdv], ?_, ?_⟩ <;>
    norm_num [evaluate_buy, spec_evaluate_buy_scaled, buyPredicates, specScaledPredicates,
      adapt_to_volatility, accelGE, calculate_composite_score, accelScore, confidenceOf,
      balancedConfig, volatileMetrics, volatileAdv]

/-- C5 (amended): `adapt_to_volatility` computes the 0.8 / 1.2 / 1.0 factor
from the volatility bands and `evaluate_buy` stores it in the adaptive
parameters, but the eight predicate comparisons use the configured thresholds
unchanged — the stored factor is applied to none of them (the predicates
coincide with the spec-scaled predicates at factor 1). -/
theorem evaluate_buy_stores_factor_but_uses_unscaled_thresholds
    (cfg : DynamicStrategyConfig) (m : WindowMetrics) (adv : AdvancedMetrics) :
    buyPredicates cfg.buyTriggers m adv = specScaledPredicates 1 cfg.buyTriggers m adv ∧
    (evaluate_buy cfg m adv).1
      = decide ((7 : ℚ)/10 ≤
          ((buyPredicates cfg.buyTriggers m adv).count true : ℚ)
            / ((buyPredicates cfg.buyTriggers m adv).length : ℚ)) ∧
    (evaluate_buy cfg m adv).2.1 = confidenceOf (buyPredicates cfg.buyTriggers m adv) ∧
    (evaluate_buy cfg m adv).2.2
      = (if cfg.adaptiveParams.enableVolatilityAdaptation then
           adapt_to_volatility adv.volatility
         else cfg.adaptiveParams.volatilityAdjustmentFactor) := by
  refine ⟨?_, rfl, rfl, rfl⟩
  simp [buyPredicates, specScaledPredicates, mul_one, one_mul, Nat.cast_le]

/-! ### C6 — threshold trigger fires at most once per token -/

/-- C6 counterexample: a threshold-crossing trade fires the trigger for
mint 7; a Migrate event then removes the window (and with it the one-shot
flag); a later identical trade recreates the window and fires the trigger a
second time — two threshold buy signals for the same token. -/
theorem threshold_retrigger_counterexample :
    countThresholdEmissions 7 (aggRunEmissions thresholdCfg AggState.init
      [ .trade bigBuyTrade 0 0 true, .migrate 7, .trade bigBuyTrade 0 0 true ]) = 2 := by
  norm_num [aggRunEmissions, aggStep, handleTradeEvent, checkThresholdTrigger,
    tradeWindowBase, tradeWindowUpdated, tradeHistoryUpdated,
    MintWindow.addEvent, MintWindow.new, MintWindow.calculateMetrics,
    mapInsert, mapRemove, countThresholdEmissions, AggState.init, i64ToU64,
    thresholdCfg, bigBuyTrade]

/-- Outcome analysis of `check_threshold_trigger`: it either returns the
window unchanged with no amount, or — only when the flag was still down —
returns the window with the flag raised and the clamped buy amount. -/
theorem checkThresholdTrigger_cases (cfg : AggConfig) (w : MintWindow) (n : ℤ) :
    checkThresholdTrigger cfg w n = (w, none) ∨
    (w.thresholdTriggered = false ∧
      checkThresholdTrigger cfg w n
        = ({ w with thresholdTriggered := true },
            some (min (max (cfg.thresholdCumulativeBuySol * cfg.thresholdBuyRatio)
              cfg.thresholdMinBuyAmountSol) cfg.thresholdMaxBuyAmountSol))) := by
  unfold checkThresholdTrigger
  split
  · exact Or.inl rfl
  · split
    · exact Or.inl rfl
    · rename_i hTrig
      split
      · exact Or.inl rfl
      · split
        · exact Or.inr ⟨by simpa using hTrig, rfl⟩
        · exact Or.inl rfl

/-- The trade path's window keeps the mint of its key. -/
theorem tradeWindowUpdated_mint (cfg : AggConfig) (s : AggState)
    (t : TradeEventData) (now wallNow : ℤ) (hwf : AggWF s) :
    (tradeWindowUpdated cfg s t now wallNow).mint = t.mint := by
  unfold tradeWindowUpdated tradeWindowBase
  rcases hw : s.windows t.mint with _ | w
  · rfl
  · exact hwf t.mint w hw

/-- The trade path's window enters the threshold check with exactly the
stored one-shot flag (down for a fresh window). -/
theorem tradeWindowUpdated_flag (cfg : AggConfig) (s : AggState)
    (t : TradeEventData) (now wallNow : ℤ) :
    (tradeWindowUpdated cfg s t now wallNow).thresholdTriggered
      = flagSet s t.mint := by
  unfold tradeWindowUpdated tradeWindowBase flagSet
  rcases hw : s.windows t.mint with _ | w <;> rfl

/-- One accepted-or-rejected trade step: well-formedness is preserved, and
the threshold emissions it contributes for any token, plus the remaining
one-shot budget of that token, never exceed the budget before the step. -/
theorem handleTradeEvent_step (cfg : AggConfig) (s : AggState)
    (t : TradeEventData) (now wallNow : ℤ) (acc : Bool) (mint : ℕ)
    (hwf : AggWF s) :
    AggWF (handleTradeEvent cfg s t now wallNow acc).1 ∧
    countThresholdEmissions mint (handleTradeEvent cfg s t now wallNow acc).2.toList
        + (if flagSet (handleTradeEvent cfg s t now wallNow acc).1 mint = true then 0 else 1)
      ≤ (if flagSet s mint = true then 0 else 1) := by
  rcases hacc : acc
  · exact ⟨hwf, by simp [handleTradeEvent, countThresholdEmissions]⟩
  · have hwmint := tradeWindowUpdated_mint cfg s t now wallNow hwf
    have hwflag := tradeWindowUpdated_flag cfg s t now wallNow
    rcases checkThresholdTrigger_cases cfg (tradeWindowUpdated cfg s t now wallNow) wallNow
      with hct | ⟨hflag, hct⟩
    · -- trigger did not fire: flag unchanged, no threshold amount emitted
      have hstep : handleTradeEvent cfg s t now wallNow true
          = ({ windows := mapInsert s.windows t.mint (tradeWindowUpdated cfg s t now wallNow)
               eventHistory := mapInsert s.eventHistory t.mint (tradeHistoryUpdated s t) },
             some { (tradeWindowUpdated cfg s t now wallNow).calculateMetrics with
                      thresholdBuyAmount := none }) := by
        simp only [handleTradeEvent, Bool.not_true, Bool.false_eq_true, if_false, hct]
      rw [hstep]
      constructor
      · intro k w hk
        simp only [mapInsert] at hk
        by_cases hkm : k = t.mint
        · rw [if_pos hkm] at hk
          cases hk
          rw [hwmint, hkm]
        · rw [if_neg hkm] at hk
          exact hwf k w hk
      · have hflagEq : flagSet
            ({ windows := mapInsert s.windows t.mint (tradeWindowUpdated cfg s t now wallNow)
               eventHistory := mapInsert s.eventHistory t.mint (tradeHistoryUpdated s t) } : AggState)
            mint = flagSet s mint := by
          unfold flagSet
          simp only [mapInsert]
          by_cases hkm : mint = t.mint
          · rw [if_pos hkm]
            have hred : (match (some (tradeWindowUpdated cfg s t now wallNow) :
                  Option MintWindow) with
                | some w => w.thresholdTriggered
                | none => false)
              = (tradeWindowUpdated cfg s t now wallNow).thresholdTriggered := rfl
            rw [hred, hwflag, hkm]
            rfl
          · rw [if_neg hkm]
        rw [hflagEq]
        simp [countThresholdEmissions]
    · -- trigger fired: flag was down, goes up, one amount emitted for t.mint
      have hstep : handleTradeEvent cfg s t now wallNow true
          = ({ windows := mapInsert s.windows t.mint
                 { tradeWindowUpdated cfg s t now wallNow with thresholdTriggered := true }
               eventHistory := mapInsert s.eventHistory t.mint (tradeHistoryUpdated s t) },
             some { ({ tradeWindowUpdated cfg s t now wallNow with
                        thresholdTriggered := true }).calculateMetrics with
                      thresholdBuyAmount :=
                        some (min (max (cfg.thresholdCumulativeBuySol * cfg.thresholdBuyRatio)
                          cfg.thresholdMinBuyAmountSol) cfg.thresholdMaxBuyAmountSol) }) := by
        simp only [handleTradeEvent, Bool.not_true, Bool.false_eq_true, if_false, hct]
      rw [hstep]
      constructor
      · intro k w hk
        simp only [mapInsert] at hk
        by_cases hkm : k = t.mint
        · rw [if_pos hkm] at hk
          cases hk
          simpa [hkm] using hwmint
        · rw [if_neg hkm] at hk
          exact hwf k w hk
      · by_cases hkm : mint = t.mint
        · -- the emission is for this token: old budget 1, new budget 0
          have hold : flagSet s mint = false := by
            rw [hkm, ← hwflag]; exact hflag
          have hnew : flagSet
              ({ windows := mapInsert s.windows t.mint
                   { tradeWindowUpdated cfg s t now wallNow with thresholdTriggered := true }
                 eventHistory := mapInsert s.eventHistory t.mint (tradeHistoryUpdated s t) } : AggState)
              mint = true := by
            unfold flagSet
            simp only [mapInsert]
            rw [if_pos hkm]
          rw [hold, hnew]
          simp [countThresholdEmissions, MintWindow.calculateMetrics, hwmint, hkm]
        · -- emission for a different token: this token's budget unchanged
          have hnew : flagSet
              ({ windows := mapInsert s.windows t.mint
                   { tradeWindowUpdated cfg s t now wallNow with thresholdTriggered := true }
                 eventHistory := mapInsert s.eventHistory t.mint (tradeHistoryUpdated s t) } : AggState)
              mint = flagSet s mint := by
            unfold flagSet
            simp only [mapInsert]
            rw [if_neg hkm]
          rw [hnew]
          have hmm : ({ tradeWindowUpdated cfg s t now wallNow with
              thresholdTriggered := true }).calculateMetrics.mint = t.mint := by
            simpa [MintWindow.calculateMetrics] using hwmint
          have hne : ¬ (({ tradeWindowUpdated cfg s t now wallNow with
              thresholdTriggered := true }).calculateMetrics.mint = mint) := by
            rw [hmm]
            exact fun h => hkm h.symm
          simp [countThresholdEmissions, hne]

/-- Unfolding one step of the emission-collecting run. -/
theorem aggRunEmissions_cons (cfg : AggConfig) (s : AggState) (op : AggOp)
    (rest : List AggOp) :
    aggRunEmissions cfg s (op :: rest)
      = (aggStep cfg s op).2.toList ++ aggRunEmissions cfg (aggStep cfg s op).1 rest := rfl

/-- Threshold emissions split over appended emission lists. -/
theorem countThresholdEmissions_append (mint : ℕ) (a b : List WindowMetrics) :
    countThresholdEmissions mint (a ++ b)
      = countThresholdEmissions mint a + countThresholdEmissions mint b := by
  simp [countThresholdEmissions, List.filter_append]

/-- Budget induction for trade-only traces: the threshold emissions for a
token are bounded by its remaining one-shot budget (1 while the flag is
down, 0 once it is up). -/
theorem threshold_trigger_budget (cfg : AggConfig) (mint : ℕ) :
    ∀ (ops : List AggOp) (s : AggState), (∀ op ∈ ops, op.isTradeOp = true) → AggWF s →
      countThresholdEmissions mint (aggRunEmissions cfg s ops)
        ≤ (if flagSet s mint = true then 0 else 1) := by
  intro ops
  induction ops with
  | nil =>
    intro s _ _
    simp only [aggRunEmissions, countThresholdEmissions, List.filter_nil, List.length_nil]
    split <;> omega
  | cons op rest ih =>
    intro s hTrades hwf
    have hop : op.isTradeOp = true := hTrades op (by simp)
    rcases op with ⟨t, now, wallNow, acc⟩ | c | m | n
    case create => simp [AggOp.isTradeOp] at hop
    case migrate => simp [AggOp.isTradeOp] at hop
    case cleanup => simp [AggOp.isTradeOp] at hop
    case trade =>
      have hstep := handleTradeEvent_step cfg s t now wallNow acc mint hwf
      have hrest := ih (handleTradeEvent cfg s t now wallNow acc).1
        (fun op' h' => hTrades op' (List.mem_cons_of_mem _ h')) hstep.1
      rw [aggRunEmissions_cons, countThresholdEmissions_append]
      have hstep2 := hstep.2
      have : (aggStep cfg s (.trade t now wallNow acc))
          = handleTradeEvent cfg s t now wallNow acc := rfl
      rw [this]
      omega

/-- C6 (amended): the threshold trigger fires at most once per token per
window lifetime — over any sequence of trade-handling operations (no Migrate
or Create handling and no cleanup sweep, each of which removes or replaces
the window and with it the one-shot flag; see the counterexample), at most
one emitted metrics record for a token carries a `threshold_buy_amount`. -/
theorem threshold_fires_at_most_once_without_removal (cfg : AggConfig)
    (mint : ℕ) (ops : List AggOp) (s : AggState)
    (hops : ∀ op ∈ ops, op.isTradeOp = true) (hwf : AggWF s) :
    countThresholdEmissions mint (aggRunEmissions cfg s ops) ≤ 1 := by
  have h := threshold_trigger_budget cfg mint ops s hops hwf
  exact le_trans h (by split <;> omega)

/-- C6 witness: two threshold-crossing trades in a row on the same mint with
no intervening removal produce at most one threshold signal. -/
theorem threshold_fires_at_most_once_witness :
    countThresholdEmissions 7 (aggRunEmissions thresholdCfg AggState.init
      [ .trade bigBuyTrade 0 0 true, .trade bigBuyTrade 0 5 true ]) ≤ 1 :=
  threshold_fires_at_most_once_without_removal thresholdCfg 7 _ AggState.init
    (by intro op hop; fin_cases hop <;> rfl)
    (by intro k w h; simp [AggState.init] at h)

/-! ### C10 — migrate removes exactly one mint -/

/-- C10: processing a Migrate event for `mint` removes exactly the window
entry and the event-history entry of `mint` (both lookups subsequently fail),
emits nothing, and leaves the entries of every other mint unchanged. -/
theorem migrate_removes_exactly_mint (cfg : AggConfig) (s : AggState) (mint : ℕ) :
    (aggStep cfg s (.migrate mint)).1.windows mint = none ∧
    (aggStep cfg s (.migrate mint)).1.eventHistory mint = none ∧
    (aggStep cfg s (.migrate mint)).2 = none ∧
    ∀ k, k ≠ mint →
      (aggStep cfg s (.migrate mint)).1.windows k = s.windows k ∧
      (aggStep cfg s (.migrate mint)).1.eventHistory k = s.eventHistory k := by
  refine ⟨by simp [aggStep, mapRemove], by simp [aggStep, mapRemove], rfl, ?_⟩
  intro k hk
  constructor <;> simp [aggStep, mapRemove, hk]

/-- C10 witness: instantiation of the migrate frame property at mint 3,
checking the untouched neighbour 5 concretely. -/
theorem migrate_removes_exactly_mint_witness :
    (aggStep
      { windowDurationSecs := 60, windowMaxEvents := 50
        enableThresholdTrigger := false, thresholdObservationWindowSecs := 60
        thresholdCumulativeBuySol := 2, thresholdBuyRatio := 1/2
        thresholdMinBuyAmountSol := 1/5, thresholdMaxBuyAmountSol := 1 }
      AggState.init (.migrate 3)).1.windows 5 = AggState.init.windows 5 :=
  ((migrate_removes_exactly_mint _ AggState.init 3).2.2.2 5 (by decide)).1

/-! ### C2 — buy instruction amounts -/

/-- Helper: the fee-adjusted input of the buy amount computation never
overflows the `u128` intermediate. -/
theorem checkedMul128_of_le {a b : ℕ} (h : a * b ≤ U128MAX) :
    checkedMul128 a b = a * b := by
  simp [checkedMul128, h]

/-- C2: for positive `u64` reserves and SOL input, the buy instruction's token
amount is `min(real_token_reserves, (S·10000/(10000+125))·V_t ÷ (V_s +
S·10000/(10000+125)))` in floor division, and (given the slippage basis
points fit the stated bounds, so that no `u128` saturation or `u64` narrowing
occurs) its `max_sol_cost` is `⌊S·(10000+slippage_bps)/10000⌋` with
`slippage_bps = (slippage_percent·100) as u64`. -/
theorem buy_instruction_amounts (rtr vtr vsr s : ℕ) (pct : ℚ)
    (hs : 0 < s) (hvt : 0 < vtr) (hvs : 0 < vsr)
    (hs64 : s ≤ U64MAX) (hvt64 : vtr ≤ U64MAX)
    (hbps : ratToU64 (pct * 100) ≤ 1000000)
    (hnof : s * (10000 + ratToU64 (pct * 100)) / 10000 ≤ U64MAX) :
    calculate_buy_token_amount rtr vtr vsr s
      = min rtr (s * 10000 / (10000 + 125) * vtr / (vsr + s * 10000 / (10000 + 125))) ∧
    calculate_max_sol_cost_with_slippage s pct
      = s * (10000 + ratToU64 (pct * 100)) / 10000 := by
  constructor
  · have hmul1 : s * 10000 ≤ U128MAX := by
      calc s * 10000 ≤ U64MAX * 10000 := Nat.mul_le_mul_right _ hs64
        _ ≤ U128MAX := by norm_num [U64MAX, U128MAX]
    have hinp : checkedDivD (checkedMul128 s 10000) (95 + 30 + 10000) 0
        = s * 10000 / 10125 := by
      rw [checkedMul128_of_le hmul1]; simp [checkedDivD]
    unfold calculate_buy_token_amount
    rw [if_neg (Nat.pos_iff_ne_zero.mp hs)]
    rw [if_neg (by push_neg; exact ⟨Nat.pos_iff_ne_zero.mp hvt, Nat.pos_iff_ne_zero.mp hvs⟩)]
    simp only [hinp]
    by_cases hz : s * 10000 / 10125 = 0
    · simp only [hz, if_pos rfl]
      simp
    · rw [if_neg hz]
      have hinple : s * 10000 / 10125 ≤ s := by
        calc s * 10000 / 10125 ≤ s * 10125 / 10125 :=
              Nat.div_le_div_right (Nat.mul_le_mul_left _ (by norm_num))
          _ = s := Nat.mul_div_cancel _ (by norm_num)
    -- the numerator product also stays within u128
      have hmul2 : s * 10000 / 10125 * vtr ≤ U128MAX := by
        calc s * 10000 / 10125 * vtr ≤ U64MAX * U64MAX :=
              Nat.mul_le_mul (le_trans hinple hs64) hvt64
          _ ≤ U128MAX := by norm_num [U64MAX, U128MAX]
      rw [checkedMul128_of_le hmul2]
      have hden : vsr + s * 10000 / 10125 ≠ 0 := by positivity
      simp only [checkedDivD, if_neg hden]
      have htle : s * 10000 / 10125 * vtr / (vsr + s * 10000 / 10125) ≤ vtr := by
        have h1 : s * 10000 / 10125 * vtr / (vsr + s * 10000 / 10125)
            ≤ s * 10000 / 10125 * vtr / (s * 10000 / 10125) :=
          Nat.div_le_div_left (Nat.le_add_left _ _) (Nat.pos_of_ne_zero hz)
        calc s * 10000 / 10125 * vtr / (vsr + s * 10000 / 10125)
            ≤ s * 10000 / 10125 * vtr / (s * 10000 / 10125) := h1
          _ = vtr := Nat.mul_div_cancel_left _ (Nat.pos_of_ne_zero hz)
      rw [min_eq_left (le_trans htle hvt64)]
      exact Nat.min_comm _ _
  · unfold calculate_max_sol_cost_with_slippage
    have hsat : s * (10000 + ratToU64 (pct * 100)) ≤ U128MAX := by
      calc s * (10000 + ratToU64 (pct * 100)) ≤ U64MAX * (10000 + 1000000) :=
            Nat.mul_le_mul hs64 (by omega)
        _ ≤ U128MAX := by norm_num [U64MAX, U128MAX]
    simp only [saturatingMul128, min_eq_left hsat, checkedDivD]
    rw [if_neg (by norm_num)]
    have hlt : s * (10000 + ratToU64 (pct * 100)) / 10000 < 2 ^ 64 :=
      lt_of_le_of_lt hnof (by norm_num [U64MAX])
    simp only [u64Cast]
    exact Nat.mod_eq_of_lt hlt

/-- C2 witness: 1 SOL in, reserves 30e9 lamports / 1e15 tokens, real reserves
1e15, 5% slippage. -/
theorem buy_instruction_amounts_witness :
    calculate_buy_token_amount 1000000000000000 1000000000000000 30000000000 1000000000
      = min 1000000000000000
          (1000000000 * 10000 / (10000 + 125) * 1000000000000000
            / (30000000000 + 1000000000 * 10000 / (10000 + 125))) ∧
    calculate_max_sol_cost_with_slippage 1000000000 5
      = 1000000000 * (10000 + ratToU64 (5 * 100)) / 10000 :=
  buy_instruction_amounts 1000000000000000 1000000000000000 30000000000 1000000000 5
    (by decide) (by decide) (by decide) (by decide) (by decide)
    (by norm_num [ratToU64, U64MAX])
    (by have h : ratToU64 (5 * 100) = 500 := by norm_num [ratToU64, U64MAX]; decide
        rw [h]; decide)

end Bott
